import Mathlib

/-!
Shallow embedding of the sizing-specialist repository
(`logic_sizing.py`, `api.py`).

Real-valued quantities of the Python code (rPerf figures, utilization
fractions) are modelled over `ℚ`; integer quantities (`int` casts,
`math.ceil` results) over `ℤ`.  `math.ceil` is `Int.ceil`, and Python's
nonnegative `%` on a positive modulus is `Int.emod`.
-/

namespace Sizing

/-- Raw CSV record of the performance table, as read by
`pd.read_csv` in `data_preparation` (`logic_sizing.py` line 13).
`cores_maximos` is the raw text of the `Cores_Maximos` column, possibly
carrying a trailing unit marker such as `48c`. -/
structure RawRow where
  modelo_unico : String
  modelo_base : String
  cores_maximos : String
  rPerf_Total : ℚ
  processador : String
  frequencia_GHz : String
deriving DecidableEq

/-- Raw tabular input: the column names present in the CSV header, plus
the cell values of each row (carried for the columns that are present;
access to an absent required column raises, see `data_preparation`). -/
structure RawCSV where
  header : List String
  rows : List RawRow
deriving DecidableEq

/-- Catalog entry after normalization: one row of the prepared
dataframe produced by `data_preparation` (`logic_sizing.py` lines 16-27). -/
structure Entry where
  modelo_unico : String
  modelo_base : String
  rPerf_por_Core : ℚ
  cores_maximos : ℤ
  processador : String
  frequencia : String
deriving DecidableEq

/-- Numeric value of a list of decimal digit characters. -/
def digitsToNat (ds : List Char) : ℕ :=
  ds.foldl (fun a c => 10 * a + (c.toNat - 48)) 0

/-- Magnitude part of a decimal literal, truncated toward zero:
an integer part, optionally followed by a dot and a fractional part,
with at least one digit overall.  Mirrors what
`pd.to_numeric(...)` followed by `astype(int)` does to a plain decimal
field (`logic_sizing.py` lines 16-20); scientific notation, which
`to_numeric` would also accept, does not occur in the table and is not
modelled. -/
def parseDecimalMagnitude (t : List Char) : Option ℕ :=
  match t.span Char.isDigit with
  | (intPart, rest) =>
    match rest with
    | [] => if intPart.isEmpty then none else some (digitsToNat intPart)
    | '.' :: frac =>
        if intPart.isEmpty && frac.isEmpty then none
        else if frac.all Char.isDigit then some (digitsToNat intPart)
        else none
    | _ => none

/-- Signed decimal literal truncated toward zero (the semantics of
`astype(int)` on the float produced by `pd.to_numeric`). -/
def parseDecimalTrunc (s : List Char) : Option ℤ :=
  match s with
  | '-' :: t => (parseDecimalMagnitude t).map (fun n => -(n : ℤ))
  | '+' :: t => (parseDecimalMagnitude t).map (fun n => (n : ℤ))
  | t => (parseDecimalMagnitude t).map (fun n => (n : ℤ))

/-- Whitespace trimming on both ends of a character list (the
whitespace tolerance of `pd.to_numeric`). -/
def trimChars (l : List Char) : List Char :=
  ((l.dropWhile Char.isWhitespace).reverse.dropWhile Char.isWhitespace).reverse

/-- Normalization of the `Cores_Maximos` field: every occurrence of the
unit marker `c` is removed (`str.replace` on line 17 of
`logic_sizing.py` replaces all occurrences of the one-character
pattern, here a character filter), surrounding whitespace is stripped,
and the remainder is parsed as a decimal number truncated to an
integer.  `none` models the `errors="coerce"` NaN that `dropna`
removes on line 19. -/
def parseCores (s : String) : Option ℤ :=
  parseDecimalTrunc (trimChars (s.data.filter (fun ch => ch ≠ 'c')))

/-- Per-row normalization of `data_preparation`: parse the cores field
and derive `rPerf_por_Core = rPerf_Total / Cores_Maximos`
(`logic_sizing.py` lines 16-24).  A row whose cores field does not
parse is dropped (`dropna`, line 19). -/
def prepareRow (r : RawRow) : Option Entry :=
  (parseCores r.cores_maximos).map fun (n : ℤ) =>
    { modelo_unico := r.modelo_unico
      modelo_base := r.modelo_base
      rPerf_por_Core := r.rPerf_Total / (n : ℚ)
      cores_maximos := n
      processador := r.processador
      frequencia := r.frequencia_GHz }

/-- All rows retained by catalog normalization, in order. -/
def prepareRows (rows : List RawRow) : List Entry :=
  rows.filterMap prepareRow

/-- Target subset: retained rows whose processor generation is `p10`
or `p11` (`logic_sizing.py` line 32). -/
def targetRows (rows : List RawRow) : List Entry :=
  (prepareRows rows).filter fun e =>
    e.processador == "p10" || e.processador == "p11"

/-- Structural failure of catalog loading: a required column is absent
from the tabular input, so the dataframe accesses in `data_preparation`
raise and the whole load aborts (`logic_sizing.py` lines 38-40). -/
structure DataLoadError where
  missingColumn : String
deriving DecidableEq

/-- Columns accessed by `data_preparation` on the loaded frame
(`logic_sizing.py` lines 16-32). -/
def requiredColumns : List String :=
  ["Cores_Maximos", "Frequencia_GHz", "rPerf_Total", "Modelo_Unico", "Processador"]

/-- Catalog build (`data_preparation`, `logic_sizing.py` lines 5-40):
if a required column is missing the whole load fails; otherwise each
row is normalized individually, rows that fail numeric parsing being
dropped, and the full catalog plus the `p10`/`p11` target subset are
returned. -/
def data_preparation (input : RawCSV) : Except DataLoadError (List Entry × List Entry) :=
  match requiredColumns.find? (fun c => !input.header.contains c) with
  | some c => .error ⟨c⟩
  | none => .ok (prepareRows input.rows, targetRows input.rows)

/-- One inventory line of the current environment: model reference,
active cores per server, number of servers, peak-utilization fraction
(the per-model record built by `client_ambient`, consumed by
`rperf_calc`). -/
structure Linha where
  modelo : String
  cores : ℤ
  servidores : ℤ
  utilizacao : ℚ
deriving DecidableEq

/-- Contribution of one inventory line to the base requirement:
`servidores * cores * rPerf_por_Core[modelo] * utilizacao`
(`logic_sizing.py` lines 134-139).  The catalog lookup
`df.loc[modelo, 'rPerf_por_Core']` is modelled by the resolution
function `rPerf_por_Core`. -/
def contribuicao (rPerf_por_Core : String → ℚ) (l : Linha) : ℚ :=
  (l.servidores : ℚ) * (l.cores : ℚ) * rPerf_por_Core l.modelo * l.utilizacao

/-- Base required performance: the running sum accumulated by
`rperf_calc` over the inventory (`logic_sizing.py` lines 130-140). -/
def rperf_base (rPerf_por_Core : String → ℚ) (inv : List Linha) : ℚ :=
  inv.foldl (fun acc l => acc + contribuicao rPerf_por_Core l) 0

/-- Compound growth projection applied to the base requirement:
`rperf_base * (1 + taxa_anual) ** anos` (`logic_sizing.py` line 157,
`api.py` line 81). -/
def apply_growth (base taxa_anual : ℚ) (anos : ℕ) : ℚ :=
  base * (1 + taxa_anual) ^ anos

/-- Growth-projection request parameters, as validated by the pydantic
model `GrowthProjection` of `api.py` (lines 17-19): both fields carry a
`ge=0` constraint. -/
structure GrowthProjection where
  taxa_anual_percent : ℚ
  anos : ℤ
deriving DecidableEq

/-- Validated construction of a `GrowthProjection`: pydantic rejects a
request whose rate or year count is negative before any computation
runs, and otherwise stores the fields unchanged (`api.py` lines 17-19). -/
def mkGrowthProjection (taxa_anual_percent : ℚ) (anos : ℤ) : Option GrowthProjection :=
  if 0 ≤ taxa_anual_percent ∧ 0 ≤ anos then
    some ⟨taxa_anual_percent, anos⟩
  else none

/-- One consolidation scenario, as assembled by `rank_cenarios`
(`logic_sizing.py` lines 203-211). -/
structure Cenario where
  modelo_unico : String
  modelo_base : String
  servidores : ℤ
  cores_por_servidor : ℤ
  rperf_novo : ℚ
  utilizacao_cores : ℚ
  excedente_rperf : ℚ
deriving DecidableEq

/-- Cores needed on a candidate:
`rperf_final_requerido / rPerf_por_Core` (`logic_sizing.py` line 181). -/
def cores_necessarios (req : ℚ) (e : Entry) : ℚ :=
  req / e.rPerf_por_Core

/-- Real server count: ceiling of the theoretical server count
`cores_necessarios / cores_maximos` (`logic_sizing.py` lines 182-183). -/
def num_servidores_real (req : ℚ) (e : Entry) : ℤ :=
  ⌈cores_necessarios req e / (e.cores_maximos : ℚ)⌉

/-- Average cores per server over the real server count
(`logic_sizing.py` line 188; only reached when the server count is
nonzero). -/
def cores_por_servidor_media (req : ℚ) (e : Entry) : ℚ :=
  cores_necessarios req e / (num_servidores_real req e : ℚ)

/-- Rounded-up average cores per server (`logic_sizing.py` line 189). -/
def cores_ativos_arredondado (req : ℚ) (e : Entry) : ℤ :=
  ⌈cores_por_servidor_media req e⌉

/-- Even-core policy: an odd rounded count is bumped to the next even
integer (`logic_sizing.py` lines 190-194). -/
def cores_ativos_por_servidor (req : ℚ) (e : Entry) : ℤ :=
  if cores_ativos_arredondado req e % 2 ≠ 0 then
    cores_ativos_arredondado req e + 1
  else
    cores_ativos_arredondado req e

/-- Core utilization of the candidate configuration
(`logic_sizing.py` line 196). -/
def utilizacao_cores (req : ℚ) (e : Entry) : ℚ :=
  (cores_ativos_por_servidor req e : ℚ) / (e.cores_maximos : ℚ)

/-- Total performance delivered by the candidate configuration
(`logic_sizing.py` line 201). -/
def rperf_novo_total (req : ℚ) (e : Entry) : ℚ :=
  (num_servidores_real req e : ℚ) * (cores_ativos_por_servidor req e : ℚ) * e.rPerf_por_Core

/-- Per-candidate evaluation of `rank_cenarios` (`logic_sizing.py`
lines 176-211): skip when the server count is zero, filter on
utilization below 0.60 or cores above the ceiling, and otherwise emit
the scenario record. -/
def evalCenario (req : ℚ) (e : Entry) : Option Cenario :=
  if num_servidores_real req e = 0 then none
  else if utilizacao_cores req e < 0.60 ∨
      cores_ativos_por_servidor req e > e.cores_maximos then none
  else
    some { modelo_unico := e.modelo_unico
           modelo_base := e.modelo_base
           servidores := num_servidores_real req e
           cores_por_servidor := cores_ativos_por_servidor req e
           rperf_novo := rperf_novo_total req e
           utilizacao_cores := utilizacao_cores req e
           excedente_rperf := rperf_novo_total req e - req }

/-- Feasible scenarios emitted for a target subset, in catalog order
(the `cenarios_validos` list of `logic_sizing.py` lines 174-211). -/
def cenarios_validos (req : ℚ) (df_alvo : List Entry) : List Cenario :=
  df_alvo.filterMap (evalCenario req)

/-- Strict two-key comparison used to replace the current family
champion: fewer servers, or equal servers and strictly smaller surplus
(`logic_sizing.py` lines 217-220). -/
def melhorQue (c best : Cenario) : Bool :=
  decide (c.servidores < best.servidores ∨
    (c.servidores = best.servidores ∧ c.excedente_rperf < best.excedente_rperf))

/-- Update of the champion dictionary with one candidate, preserving
Python dict semantics: an existing key keeps its position and is
replaced in place when the candidate wins on the two keys, a new key is
appended at the end (`logic_sizing.py` lines 214-221). -/
def insereCenario (c : Cenario) : List (String × Cenario) → List (String × Cenario)
  | [] => [(c.modelo_base, c)]
  | (k, best) :: rest =>
    if k = c.modelo_base then
      (if melhorQue c best then (k, c) else (k, best)) :: rest
    else
      (k, best) :: insereCenario c rest

/-- Champion dictionary built over all feasible scenarios
(`melhores_por_modelo`, `logic_sizing.py` lines 214-221). -/
def melhoresPorModelo (cs : List Cenario) : List (String × Cenario) :=
  cs.foldl (fun acc c => insereCenario c acc) []

/-- Non-strict lexicographic order on the ranking key
`(servidores, excedente_rperf)` used by the final sort
(`logic_sizing.py` lines 224-226). -/
def chaveLe (a b : Cenario) : Bool :=
  decide (a.servidores < b.servidores ∨
    (a.servidores = b.servidores ∧ a.excedente_rperf ≤ b.excedente_rperf))

/-- Scenario generation and ranking (`rank_cenarios`, `logic_sizing.py`
lines 167-239): evaluate every target entry, keep one champion per base
model, sort champions by `(servidores, excedente_rperf)` ascending,
truncate to the first 10. -/
def rank_cenarios (req : ℚ) (df_alvo : List Entry) : List Cenario :=
  let campeoes := (melhoresPorModelo (cenarios_validos req df_alvo)).map Prod.snd
  (campeoes.mergeSort chaveLe).take 10


/-! ## Concrete inputs for the worked catalog scenario -/

/-- Configuration A of the worked scenario: family `X`,
`max_cores = 20`, `performance_per_core = 1`. -/
def configA : Entry := ⟨"XA", "X", 1, 20, "p10", "4.0"⟩

/-- Configuration B of the worked scenario: family `X`,
`max_cores = 40`, `performance_per_core = 1`. -/
def configB : Entry := ⟨"XB", "X", 1, 40, "p10", "4.0"⟩

/-- Scenario emitted for configuration A at
`required_performance = 15`: one server, 16 active cores,
utilization `16/20 = 4/5`, total performance 16, surplus 1. -/
def cenarioA : Cenario := ⟨"XA", "X", 1, 16, 16, 4/5, 1⟩

/-- C2: with one family `X` holding configurations A
(`max_cores = 20`, `perf/core = 1`) and B (`max_cores = 40`,
`perf/core = 1`) and `required_performance = 15`, the evaluation emits
for A the scenario with `server_count = 1`,
`active_cores_per_server = 16`, `core_utilization_fraction = 4/5`,
`total_performance = 16` and `surplus_performance = 1`, rejects B
(utilization `16/40 = 2/5` is below `0.60`), and the ranking returns
exactly A's scenario as the sole champion of family `X`. -/
theorem claim_C2 :
    evalCenario 15 configA = some cenarioA ∧
    evalCenario 15 configB = none ∧
    rank_cenarios 15 [configA, configB] = [cenarioA] := by
  have h1 : num_servidores_real 15 configA = 1 := by
    rw [num_servidores_real, cores_necessarios, Int.ceil_eq_iff]
    norm_num [configA]
  have h2 : cores_ativos_arredondado 15 configA = 15 := by
    rw [cores_ativos_arredondado, cores_por_servidor_media, cores_necessarios, h1,
      Int.ceil_eq_iff]
    norm_num [configA]
  have h3 : cores_ativos_por_servidor 15 configA = 16 := by
    rw [cores_ativos_por_servidor, h2]
    norm_num
  have h4 : utilizacao_cores 15 configA = 4/5 := by
    rw [utilizacao_cores, h3]
    norm_num [configA]
  have h5 : rperf_novo_total 15 configA = 16 := by
    rw [rperf_novo_total, h1, h3]
    norm_num [configA]
  have hA : evalCenario 15 configA = some cenarioA := by
    rw [evalCenario, h1, h3, h4, h5]
    norm_num [cenarioA, configA]
  have k1 : num_servidores_real 15 configB = 1 := by
    rw [num_servidores_real, cores_necessarios, Int.ceil_eq_iff]
    norm_num [configB]
  have k2 : cores_ativos_arredondado 15 configB = 15 := by
    rw [cores_ativos_arredondado, cores_por_servidor_media, cores_necessarios, k1,
      Int.ceil_eq_iff]
    norm_num [configB]
  have k3 : cores_ativos_por_servidor 15 configB = 16 := by
    rw [cores_ativos_por_servidor, k2]
    norm_num
  have k4 : utilizacao_cores 15 configB = 2/5 := by
    rw [utilizacao_cores, k3]
    norm_num [configB]
  have hB : evalCenario 15 configB = none := by
    rw [evalCenario, k1, k4]
    norm_num
  have hv : cenarios_validos 15 [configA, configB] = [cenarioA] := by
    simp [cenarios_validos, hA, hB]
  refine ⟨hA, hB, ?_⟩
  rw [rank_cenarios, hv]
  simp [melhoresPorModelo, insereCenario]

/-- C10: the base-requirement accumulation of `rperf_calc` over an
empty inventory returns exactly 0 and does not fail. -/
theorem claim_C10 (rPerf_por_Core : String → ℚ) :
    rperf_base rPerf_por_Core [] = 0 := rfl

/-- C6: `apply_growth` computes `base * (1 + rate) ^ years`, and a zero
rate or a zero year count makes it the identity on `base`. -/
theorem claim_C6 (base taxa : ℚ) (anos : ℕ) :
    apply_growth base taxa anos = base * (1 + taxa) ^ anos ∧
    apply_growth base 0 anos = base ∧
    apply_growth base taxa 0 = base := by
  refine ⟨rfl, ?_, ?_⟩ <;> simp [apply_growth]

/-- Growth projection as computed by the interactive `rperf_calc` path
(`logic_sizing.py` line 157): `rperf_base * (1 + taxa_anual) ** anos`,
applied with no validation of the sign of either parameter (the year
count read by `int(input())` may be negative, hence the integer
exponent). -/
def rperf_projecao (rperf_base taxa_anual : ℚ) (anos : ℤ) : ℚ :=
  rperf_base * (1 + taxa_anual) ^ anos

/-- C7 fails as stated: the growth computation of `rperf_calc` accepts
a negative rate with no check at all — at base 100, rate `-1/2` and 2
years it silently computes the shrinking projection 25 instead of
rejecting. -/
theorem claim_C7_counterexample :
    rperf_projecao 100 (-1/2) 2 = 25 ∧ rperf_projecao 100 (-1/2) 2 < 100 := by
  have h : rperf_projecao 100 (-1/2) 2 = 25 := by
    rw [rperf_projecao, show (2:ℤ) = ((2:ℕ) : ℤ) from rfl, zpow_natCast]
    norm_num
  exact ⟨h, by rw [h]; norm_num⟩

/-- C7 (amended): on the API request path the validated
growth-projection constructor rejects a negative rate or a negative
year count before anything is computed and never clamps (a
successfully constructed projection stores the parameters unchanged);
the interactive `rperf_calc` path, by contrast, performs no such check:
it applies `base * (1 + rate) ^ years` unconditionally, and for a
negative rate in `(-1, 0)`, positive years and positive base it
silently computes a strictly shrinking projection. -/
theorem claim_C7 (taxa : ℚ) (anos : ℤ) :
    ((taxa < 0 ∨ anos < 0) → mkGrowthProjection taxa anos = none) ∧
    (∀ g, mkGrowthProjection taxa anos = some g →
      g.taxa_anual_percent = taxa ∧ g.anos = anos) ∧
    (∀ base : ℚ, rperf_projecao base taxa anos = base * (1 + taxa) ^ anos) ∧
    (∀ base : ℚ, -1 < taxa → taxa < 0 → 0 < anos → 0 < base →
      rperf_projecao base taxa anos < base) := by
  refine ⟨?_, ?_, fun base => rfl, ?_⟩
  · intro h
    rw [mkGrowthProjection, if_neg]
    rintro ⟨h0, h1⟩
    rcases h with h | h
    · exact absurd h0 (not_le.mpr h)
    · exact absurd h1 (not_le.mpr h)
  · intro g hg
    rw [mkGrowthProjection] at hg
    split_ifs at hg
    injection hg with h2
    subst h2
    exact ⟨rfl, rfl⟩
  · intro base hm1 h0 hanos hbase
    rw [rperf_projecao]
    obtain ⟨n, rfl⟩ : ∃ n : ℕ, anos = (n : ℤ) :=
      ⟨anos.toNat, (Int.toNat_of_nonneg hanos.le).symm⟩
    rw [zpow_natCast]
    have hn : n ≠ 0 := by exact_mod_cast hanos.ne'
    have hq : (1 + taxa) ^ n < 1 :=
      pow_lt_one₀ (by linarith) (by linarith) hn
    calc base * (1 + taxa) ^ n < base * 1 :=
          (mul_lt_mul_left hbase).mpr hq
      _ = base := mul_one base

/-- Witness for C7 at the concrete input `taxa = -1`, `anos = 3`. -/
theorem claim_C7_witness : mkGrowthProjection (-1) 3 = none :=
  (claim_C7 (-1) 3).1 (Or.inl (by norm_num))

/-- Target entry used to refute the negative-requirement claim:
family `NF`, `max_cores = 20`, `performance_per_core = 1`. -/
def entryNeg : Entry := ⟨"N", "NF", 1, 20, "p10", "4.0"⟩

/-- Scenario actually emitted for `entryNeg` at
`required_performance = -100`: server count `-5` (the ceiling of a
negative theoretical count is nonzero), 20 active cores, utilization 1,
total performance `-100`, surplus 0. -/
def cenarioNeg : Cenario := ⟨"N", "NF", -5, 20, -100, 1, 0⟩

/-- C4 fails as stated: at `required_performance = -100` the candidate
`entryNeg` does not yield a zero server count (it yields `-5`), it is
not skipped, and `rank_cenarios` returns a non-empty list. -/
theorem claim_C4_counterexample :
    num_servidores_real (-100) entryNeg = -5 ∧
    rank_cenarios (-100) [entryNeg] = [cenarioNeg] ∧
    rank_cenarios (-100) [entryNeg] ≠ [] := by
  have h1 : num_servidores_real (-100) entryNeg = -5 := by
    rw [num_servidores_real, cores_necessarios, Int.ceil_eq_iff]
    norm_num [entryNeg]
  have h2 : cores_ativos_arredondado (-100) entryNeg = 20 := by
    rw [cores_ativos_arredondado, cores_por_servidor_media, cores_necessarios, h1,
      Int.ceil_eq_iff]
    norm_num [entryNeg]
  have h3 : cores_ativos_por_servidor (-100) entryNeg = 20 := by
    rw [cores_ativos_por_servidor, h2]
    norm_num
  have h4 : utilizacao_cores (-100) entryNeg = 1 := by
    rw [utilizacao_cores, h3]
    norm_num [entryNeg]
  have h5 : rperf_novo_total (-100) entryNeg = -100 := by
    rw [rperf_novo_total, h1, h3]
    norm_num [entryNeg]
  have hA : evalCenario (-100) entryNeg = some cenarioNeg := by
    rw [evalCenario, h1, h3, h4, h5]
    norm_num [cenarioNeg, entryNeg]
  have hv : cenarios_validos (-100) [entryNeg] = [cenarioNeg] := by
    simp [cenarios_validos, hA]
  have hr : rank_cenarios (-100) [entryNeg] = [cenarioNeg] := by
    rw [rank_cenarios, hv]
    simp [melhoresPorModelo, insereCenario]
  refine ⟨h1, hr, ?_⟩
  rw [hr]
  simp

/-- C4 (amended): at `required_performance = 0` every candidate yields
a zero server count and is skipped, so `rank_cenarios` returns the
empty list as a valid non-error outcome.  (For strictly negative
requirements the skip guard can fail to trigger, see the
counterexample.) -/
theorem claim_C4 (df_alvo : List Entry) :
    (∀ e ∈ df_alvo, num_servidores_real 0 e = 0 ∧ evalCenario 0 e = none) ∧
    rank_cenarios 0 df_alvo = [] := by
  have hn : ∀ e : Entry, num_servidores_real 0 e = 0 := by
    intro e
    simp [num_servidores_real, cores_necessarios]
  have he : ∀ e : Entry, evalCenario 0 e = none := by
    intro e
    rw [evalCenario, if_pos (hn e)]
  refine ⟨fun e _ => ⟨hn e, he e⟩, ?_⟩
  have hv : cenarios_validos 0 df_alvo = [] := by
    rw [cenarios_validos, List.filterMap_eq_nil_iff]
    intro e _
    exact he e
  rw [rank_cenarios, hv]
  simp [melhoresPorModelo]

/-- Witness for the amended C4 at the concrete one-entry subset
`[entryNegW]`. -/
theorem claim_C4_witness :
    rank_cenarios 0 [(⟨"W", "WF", 2, 24, "p10", "4.0"⟩ : Entry)] = [] :=
  (claim_C4 [⟨"W", "WF", 2, 24, "p10", "4.0"⟩]).2

/-- C3: every scenario emitted by the per-candidate evaluation of a
target entry with positive `performance_per_core` and positive
`max_cores` has an even active-core count not exceeding `max_cores`, a
utilization equal to `active_cores / max_cores` lying in
`[0.60, 1]`, and a surplus equal to `total - required` that is never
negative. -/
theorem claim_C3 (req : ℚ) (e : Entry) (c : Cenario)
    (hp : 0 < e.rPerf_por_Core) (hm : 0 < e.cores_maximos)
    (hc : evalCenario req e = some c) :
    c.cores_por_servidor % 2 = 0 ∧
    c.cores_por_servidor ≤ e.cores_maximos ∧
    c.utilizacao_cores = (c.cores_por_servidor : ℚ) / (e.cores_maximos : ℚ) ∧
    (0.60 : ℚ) ≤ c.utilizacao_cores ∧
    c.utilizacao_cores ≤ 1 ∧
    c.excedente_rperf = c.rperf_novo - req ∧
    0 ≤ c.excedente_rperf := by
  rw [evalCenario] at hc
  split_ifs at hc with h0 hf
  injection hc with hc
  subst hc
  push_neg at hf
  obtain ⟨hu, hle⟩ := hf
  have hmQ : (0:ℚ) < (e.cores_maximos : ℚ) := by exact_mod_cast hm
  have hcaQ : (cores_ativos_por_servidor req e : ℚ) ≤ (e.cores_maximos : ℚ) := by
    exact_mod_cast hle
  have heven : cores_ativos_por_servidor req e % 2 = 0 := by
    rw [cores_ativos_por_servidor]
    split_ifs with h <;> omega
  have hpne : e.rPerf_por_Core ≠ 0 := ne_of_gt hp
  have hreq : cores_necessarios req e * e.rPerf_por_Core = req := by
    rw [cores_necessarios]
    exact div_mul_cancel₀ req hpne
  have hcaa : cores_ativos_arredondado req e ≤ cores_ativos_por_servidor req e := by
    rw [cores_ativos_por_servidor]
    split_ifs <;> omega
  have hmed_le_ca :
      cores_por_servidor_media req e ≤ (cores_ativos_por_servidor req e : ℚ) := by
    refine le_trans ?_ (show ((cores_ativos_arredondado req e : ℤ) : ℚ) ≤ _ by
      exact_mod_cast hcaa)
    rw [cores_ativos_arredondado]
    exact Int.le_ceil _
  have hnQ : ((num_servidores_real req e : ℤ) : ℚ) ≠ 0 := by
    exact_mod_cast h0
  have hC : cores_necessarios req e =
      cores_por_servidor_media req e * (num_servidores_real req e : ℚ) := by
    rw [cores_por_servidor_media, div_mul_cancel₀ _ hnQ]
  have hsurplus : 0 ≤ rperf_novo_total req e - req := by
    rcases (Ne.lt_or_lt h0) with hN | hN
    · -- negative server count: the filter forces an exact match
      have hNQ : ((num_servidores_real req e : ℤ) : ℚ) < 0 := by exact_mod_cast hN
      have ht : cores_necessarios req e / (e.cores_maximos : ℚ) ≤
          (num_servidores_real req e : ℚ) := by
        rw [num_servidores_real]
        exact Int.le_ceil _
      have hCle : cores_necessarios req e ≤
          (num_servidores_real req e : ℚ) * (e.cores_maximos : ℚ) :=
        (div_le_iff₀ hmQ).mp ht
      have hmed : (e.cores_maximos : ℚ) ≤ cores_por_servidor_media req e := by
        rw [cores_por_servidor_media, le_div_iff_of_neg hNQ, mul_comm]
        exact hCle
      have hcaeq : (cores_ativos_por_servidor req e : ℚ) = (e.cores_maximos : ℚ) :=
        le_antisymm hcaQ (le_trans hmed hmed_le_ca)
      have hmedeq : cores_por_servidor_media req e = (e.cores_maximos : ℚ) :=
        le_antisymm (le_trans hmed_le_ca (le_of_eq hcaeq)) hmed
      have hzero :
          (num_servidores_real req e : ℚ) * (cores_ativos_por_servidor req e : ℚ) *
            e.rPerf_por_Core - req = 0 := by
        linear_combination
          ((num_servidores_real req e : ℚ) * e.rPerf_por_Core) * hcaeq + hreq -
            e.rPerf_por_Core * hC -
            ((num_servidores_real req e : ℚ) * e.rPerf_por_Core) * hmedeq
      rw [rperf_novo_total]
      linarith [hzero]
    · -- positive server count: rounding only adds capacity
      have hNQ : (0:ℚ) < ((num_servidores_real req e : ℤ) : ℚ) := by exact_mod_cast hN
      have h1 : cores_necessarios req e ≤
          (cores_ativos_por_servidor req e : ℚ) * (num_servidores_real req e : ℚ) := by
        rw [hC]
        exact mul_le_mul_of_nonneg_right hmed_le_ca (le_of_lt hNQ)
      have h2 : cores_necessarios req e * e.rPerf_por_Core ≤
          (cores_ativos_por_servidor req e : ℚ) * (num_servidores_real req e : ℚ) *
            e.rPerf_por_Core :=
        mul_le_mul_of_nonneg_right h1 (le_of_lt hp)
      rw [hreq] at h2
      have h3 : (cores_ativos_por_servidor req e : ℚ) * (num_servidores_real req e : ℚ) *
            e.rPerf_por_Core =
          (num_servidores_real req e : ℚ) * (cores_ativos_por_servidor req e : ℚ) *
            e.rPerf_por_Core := by
        ring
      rw [rperf_novo_total]
      linarith [h2, h3]
  exact ⟨heven, hle, rfl, hu, div_le_one_of_le₀ hcaQ (le_of_lt hmQ), rfl, hsurplus⟩

/-- Witness for C3 at `required_performance = 12` and the entry
(family `Y`, `perf/core = 2`, `max_cores = 10`), whose emitted scenario
has 1 server, 6 cores, utilization `3/5`, total 12, surplus 0. -/
theorem claim_C3_witness :
    (⟨"Y1", "Y", 1, 6, 12, 3/5, 0⟩ : Cenario).cores_por_servidor % 2 = 0 ∧
    (⟨"Y1", "Y", 1, 6, 12, 3/5, 0⟩ : Cenario).cores_por_servidor ≤
      (⟨"Y1", "Y", 2, 10, "p10", "4.0"⟩ : Entry).cores_maximos ∧
    (⟨"Y1", "Y", 1, 6, 12, 3/5, 0⟩ : Cenario).utilizacao_cores =
      ((⟨"Y1", "Y", 1, 6, 12, 3/5, 0⟩ : Cenario).cores_por_servidor : ℚ) /
        ((⟨"Y1", "Y", 2, 10, "p10", "4.0"⟩ : Entry).cores_maximos : ℚ) ∧
    (0.60 : ℚ) ≤ (⟨"Y1", "Y", 1, 6, 12, 3/5, 0⟩ : Cenario).utilizacao_cores ∧
    (⟨"Y1", "Y", 1, 6, 12, 3/5, 0⟩ : Cenario).utilizacao_cores ≤ 1 ∧
    (⟨"Y1", "Y", 1, 6, 12, 3/5, 0⟩ : Cenario).excedente_rperf =
      (⟨"Y1", "Y", 1, 6, 12, 3/5, 0⟩ : Cenario).rperf_novo - 12 ∧
    0 ≤ (⟨"Y1", "Y", 1, 6, 12, 3/5, 0⟩ : Cenario).excedente_rperf := by
  have h1 : num_servidores_real 12 (⟨"Y1", "Y", 2, 10, "p10", "4.0"⟩ : Entry) = 1 := by
    rw [num_servidores_real, cores_necessarios, Int.ceil_eq_iff]
    norm_num
  have h2 : cores_ativos_arredondado 12 (⟨"Y1", "Y", 2, 10, "p10", "4.0"⟩ : Entry) = 6 := by
    rw [cores_ativos_arredondado, cores_por_servidor_media, cores_necessarios, h1,
      Int.ceil_eq_iff]
    norm_num
  have h3 : cores_ativos_por_servidor 12 (⟨"Y1", "Y", 2, 10, "p10", "4.0"⟩ : Entry) = 6 := by
    rw [cores_ativos_por_servidor, h2]
    norm_num
  have h4 : utilizacao_cores 12 (⟨"Y1", "Y", 2, 10, "p10", "4.0"⟩ : Entry) = 3/5 := by
    rw [utilizacao_cores, h3]
    norm_num
  have h5 : rperf_novo_total 12 (⟨"Y1", "Y", 2, 10, "p10", "4.0"⟩ : Entry) = 12 := by
    rw [rperf_novo_total, h1, h3]
    norm_num
  have hc : evalCenario 12 (⟨"Y1", "Y", 2, 10, "p10", "4.0"⟩ : Entry) =
      some (⟨"Y1", "Y", 1, 6, 12, 3/5, 0⟩ : Cenario) := by
    rw [evalCenario, h1, h3, h4, h5]
    norm_num
  exact claim_C3 12 ⟨"Y1", "Y", 2, 10, "p10", "4.0"⟩ ⟨"Y1", "Y", 1, 6, 12, 3/5, 0⟩
    (by norm_num) (by norm_num) hc

/-- Accumulating the contributions with a running sum is the sum of the
mapped contributions. -/
theorem rperf_base_eq_sum (rp : String → ℚ) (inv : List Linha) :
    rperf_base rp inv = (inv.map (contribuicao rp)).sum := by
  have h : ∀ (l : List Linha) (a : ℚ),
      l.foldl (fun acc x => acc + contribuicao rp x) a =
        a + (l.map (contribuicao rp)).sum := by
    intro l
    induction l with
    | nil => intro a; simp
    | cons x xs ih =>
        intro a
        simp [ih, add_assoc]
  simpa using h inv 0

/-- C5: the base-requirement sum of `rperf_calc` is invariant under
reordering of the inventory lines, and two lines sharing the same
model, core count and utilization can be pre-merged into a single line
with summed server count without changing the result. -/
theorem claim_C5 (rp : String → ℚ) :
    (∀ inv1 inv2 : List Linha, inv1.Perm inv2 →
      rperf_base rp inv1 = rperf_base rp inv2) ∧
    (∀ (inv : List Linha) (l1 l2 : Linha),
      l1.modelo = l2.modelo → l1.cores = l2.cores → l1.utilizacao = l2.utilizacao →
      rperf_base rp (inv ++ [l1, l2]) =
        rperf_base rp
          (inv ++ [⟨l1.modelo, l1.cores, l1.servidores + l2.servidores, l1.utilizacao⟩])) := by
  constructor
  · intro inv1 inv2 hperm
    rw [rperf_base_eq_sum, rperf_base_eq_sum]
    exact (hperm.map (contribuicao rp)).sum_eq
  · intro inv l1 l2 hmod hcores hutil
    obtain ⟨m1, c1, s1, u1⟩ := l1
    obtain ⟨m2, c2, s2, u2⟩ := l2
    obtain ⟨rfl, rfl, rfl⟩ : m2 = m1 ∧ c2 = c1 ∧ u2 = u1 :=
      ⟨hmod.symm, hcores.symm, hutil.symm⟩
    rw [rperf_base_eq_sum, rperf_base_eq_sum]
    simp only [List.map_append, List.sum_append, List.map_cons, List.map_nil,
      List.sum_cons, List.sum_nil, contribuicao]
    push_cast
    ring

/-- Witness for C5: swapping two concrete inventory lines leaves the
base requirement unchanged. -/
theorem claim_C5_witness :
    rperf_base (fun _ => 2) [⟨"m1", 4, 2, 1⟩, ⟨"m2", 8, 1, 1/2⟩] =
      rperf_base (fun _ => 2) [⟨"m2", 8, 1, 1/2⟩, ⟨"m1", 4, 2, 1⟩] :=
  (claim_C5 (fun _ => 2)).1 _ _ (List.Perm.swap _ _ _)

/-- C8 fails as stated: a raw row whose `rPerf_Total` is 0 parses
cleanly (cores field `4`) and is retained by catalog normalization with
`performance_per_core = 0`, which is not positive. -/
theorem claim_C8_counterexample :
    prepareRows [⟨"M0", "F0", "4", 0, "p10", "4.0"⟩] =
      [⟨"M0", "F0", 0, 4, "p10", "4.0"⟩] ∧
    ¬ (0 < (⟨"M0", "F0", 0, 4, "p10", "4.0"⟩ : Entry).rPerf_por_Core) := by
  constructor
  · have hp : parseCores "4" = some 4 := by decide
    simp [prepareRows, prepareRow, hp]
  · norm_num

/-- C8 (amended): every retained catalog entry comes from a raw row
whose cores field parsed to the entry's `max_cores` and carries
`performance_per_core = rPerf_Total / max_cores`; a row whose cores
field fails numeric parsing is dropped and never surfaced; and when
every raw row has positive `rPerf_Total` and a cores field that only
parses to a positive integer, every retained entry satisfies
`performance_per_core > 0` and `max_cores > 0`. -/
theorem claim_C8 (rows : List RawRow)
    (hpos : ∀ r ∈ rows, 0 < r.rPerf_Total ∧
      ∀ n : ℤ, parseCores r.cores_maximos = some n → 0 < n) :
    (∀ e ∈ prepareRows rows, 0 < e.rPerf_por_Core ∧ 0 < e.cores_maximos ∧
      ∃ r ∈ rows, parseCores r.cores_maximos = some e.cores_maximos ∧
        e.rPerf_por_Core = r.rPerf_Total / (e.cores_maximos : ℚ)) ∧
    (∀ (r : RawRow) (rest : List RawRow), parseCores r.cores_maximos = none →
      prepareRows (r :: rest) = prepareRows rest) := by
  constructor
  · intro e he
    rw [prepareRows, List.mem_filterMap] at he
    obtain ⟨r, hr, hre⟩ := he
    rw [prepareRow] at hre
    obtain ⟨n, hn, hne⟩ := Option.map_eq_some'.mp hre
    obtain ⟨hrt, hnp⟩ := hpos r hr
    have hn0 : 0 < n := hnp n hn
    subst hne
    refine ⟨?_, hn0, r, hr, hn, rfl⟩
    have : (0:ℚ) < (n : ℚ) := by exact_mod_cast hn0
    exact div_pos hrt this
  · intro r rest hnone
    simp [prepareRows, List.filterMap_cons, prepareRow, hnone]

/-- Raw row used by the C8 witness: cores field `8c`, total
performance 16. -/
def rowW8 : RawRow := ⟨"W8", "F8", "8c", 16, "p10", "4.0"⟩

/-- Entry retained for `rowW8`: 8 cores, `performance_per_core = 2`. -/
def entryW8 : Entry := ⟨"W8", "F8", 2, 8, "p10", "4.0"⟩

/-- Witness for the amended C8: the entry retained from the one-row
input `rowW8` has positive `performance_per_core` and positive
`max_cores`. -/
theorem claim_C8_witness :
    0 < entryW8.rPerf_por_Core ∧ 0 < entryW8.cores_maximos := by
  have hp8 : parseCores "8c" = some 8 := by decide
  have hpr : prepareRows [rowW8] = [entryW8] := by
    simp [prepareRows, prepareRow, rowW8, hp8]
    norm_num [entryW8]
  have h := (claim_C8 [rowW8]
    (by
      intro r hr
      rw [List.mem_singleton] at hr
      subst hr
      refine ⟨by norm_num [rowW8], ?_⟩
      intro n hn
      rw [rowW8, hp8] at hn
      injection hn with hn
      omega)).1 entryW8 (by rw [hpr]; exact List.mem_singleton_self _)
  exact ⟨h.1, h.2.1⟩

/-- Membership test of the header list as a decidable proposition. -/
theorem contains_eq_decide_mem (as : List String) (a : String) :
    as.contains a = decide (a ∈ as) :=
  List.elem_eq_mem a as

/-- C9: catalog build fails with a `DataLoadError` exactly when a
required column is missing from the tabular input; with all required
columns present it succeeds, and a row-level parse failure only skips
that row while construction continues. -/
theorem claim_C9 (input : RawCSV) :
    ((∀ c ∈ requiredColumns, c ∈ input.header) →
      data_preparation input =
        Except.ok (prepareRows input.rows, targetRows input.rows)) ∧
    ((∃ c ∈ requiredColumns, c ∉ input.header) →
      ∃ err : DataLoadError, err.missingColumn ∈ requiredColumns ∧
        err.missingColumn ∉ input.header ∧
        data_preparation input = Except.error err) ∧
    (∀ (r : RawRow) (rest : List RawRow), prepareRow r = none →
      prepareRows (r :: rest) = prepareRows rest) := by
  refine ⟨?_, ?_, ?_⟩
  · intro hall
    have hnone : requiredColumns.find? (fun c => !input.header.contains c) = none := by
      rw [List.find?_eq_none]
      intro c hc
      rw [contains_eq_decide_mem]
      simp [hall c hc]
    rw [data_preparation, hnone]
  · rintro ⟨c0, hc0, hn0⟩
    have hsome : (requiredColumns.find? (fun c => !input.header.contains c)).isSome := by
      rw [List.find?_isSome]
      refine ⟨c0, hc0, ?_⟩
      rw [contains_eq_decide_mem]
      simp [hn0]
    obtain ⟨c, hc⟩ := Option.isSome_iff_exists.mp hsome
    refine ⟨⟨c⟩, List.mem_of_find?_eq_some hc, ?_, ?_⟩
    · have hpc := List.find?_some hc
      rw [contains_eq_decide_mem] at hpc
      simpa using hpc
    · rw [data_preparation, hc]
  · intro r rest hnone
    simp [prepareRows, List.filterMap_cons, hnone]

/-- Witness for C9: with exactly the required columns present and no
rows, catalog build succeeds with empty catalogs. -/
theorem claim_C9_witness :
    data_preparation ⟨requiredColumns, []⟩ = Except.ok ([], []) :=
  (claim_C9 ⟨requiredColumns, []⟩).1 (fun _ hc => hc)

/-- The ranking key order is reflexive. -/
theorem chaveLe_refl (a : Cenario) : chaveLe a a = true := by
  simp [chaveLe]

/-- The ranking key order is transitive. -/
theorem chaveLe_trans {a b c : Cenario} (h1 : chaveLe a b = true)
    (h2 : chaveLe b c = true) : chaveLe a c = true := by
  simp only [chaveLe, decide_eq_true_eq] at h1 h2 ⊢
  rcases h1 with h1 | ⟨h1e, h1x⟩ <;> rcases h2 with h2 | ⟨h2e, h2x⟩
  · exact Or.inl (lt_trans h1 h2)
  · exact Or.inl (by omega)
  · exact Or.inl (by omega)
  · exact Or.inr ⟨h1e.trans h2e, le_trans h1x h2x⟩

/-- The ranking key order is total. -/
theorem chaveLe_total (a b : Cenario) :
    chaveLe a b = true ∨ chaveLe b a = true := by
  simp only [chaveLe, decide_eq_true_eq]
  rcases lt_trichotomy a.servidores b.servidores with h | h | h
  · exact Or.inl (Or.inl h)
  · rcases le_total a.excedente_rperf b.excedente_rperf with hx | hx
    · exact Or.inl (Or.inr ⟨h, hx⟩)
    · exact Or.inr (Or.inr ⟨h.symm, hx⟩)
  · exact Or.inr (Or.inl h)

/-- Boolean form of totality, as consumed by the sorting lemma. -/
theorem chaveLe_total_bool (a b : Cenario) :
    (chaveLe a b || chaveLe b a) = true := by
  rcases chaveLe_total a b with h | h <;> simp [h]

/-- A strictly better candidate is also no worse on the ranking key. -/
theorem chaveLe_of_melhorQue {c b : Cenario} (h : melhorQue c b = true) :
    chaveLe c b = true := by
  simp only [melhorQue, decide_eq_true_eq] at h
  simp only [chaveLe, decide_eq_true_eq]
  rcases h with h | ⟨he, hx⟩
  · exact Or.inl h
  · exact Or.inr ⟨he, le_of_lt hx⟩

/-- A candidate that does not strictly beat the champion is no better
than it on the ranking key. -/
theorem chaveLe_of_not_melhorQue {c b : Cenario} (h : melhorQue c b = false) :
    chaveLe b c = true := by
  simp only [melhorQue, decide_eq_false_iff_not] at h
  push_neg at h
  obtain ⟨h1, h2⟩ := h
  simp only [chaveLe, decide_eq_true_eq]
  rcases eq_or_lt_of_le h1 with he | hlt
  · exact Or.inr ⟨he, h2 he.symm⟩
  · exact Or.inl hlt

/-- Every pair of the updated champion dictionary either comes from the
old dictionary or carries the inserted candidate's family key. -/
theorem mem_insere (c : Cenario) :
    ∀ (acc : List (String × Cenario)) (p : String × Cenario),
      p ∈ insereCenario c acc → p ∈ acc ∨ p.1 = c.modelo_base := by
  intro acc
  induction acc with
  | nil =>
      intro p hp
      rw [insereCenario, List.mem_singleton] at hp
      subst hp
      exact Or.inr rfl
  | cons hd tl ih =>
      obtain ⟨k, best⟩ := hd
      intro p hp
      rw [insereCenario] at hp
      by_cases hk : k = c.modelo_base
      · rw [if_pos hk] at hp
        rcases List.mem_cons.mp hp with rfl | hmem
        · refine Or.inr ?_
          split <;> exact hk
        · exact Or.inl (List.mem_cons_of_mem _ hmem)
      · rw [if_neg hk] at hp
        rcases List.mem_cons.mp hp with rfl | hmem
        · exact Or.inl (List.mem_cons_self _ _)
        · rcases ih p hmem with h | h
          · exact Or.inl (List.mem_cons_of_mem _ h)
          · exact Or.inr h

/-- Updating the champion dictionary keeps each stored scenario's
family equal to its key. -/
theorem insere_snd_base (c : Cenario) :
    ∀ (acc : List (String × Cenario)),
      (∀ p ∈ acc, (Prod.snd p).modelo_base = p.1) →
      ∀ p ∈ insereCenario c acc, (Prod.snd p).modelo_base = p.1 := by
  intro acc
  induction acc with
  | nil =>
      intro _ p hp
      rw [insereCenario, List.mem_singleton] at hp
      subst hp
      rfl
  | cons hd tl ih =>
      obtain ⟨k, best⟩ := hd
      intro hall p hp
      rw [insereCenario] at hp
      by_cases hk : k = c.modelo_base
      · rw [if_pos hk] at hp
        rcases List.mem_cons.mp hp with rfl | hmem
        · by_cases hm : melhorQue c best = true
          · rw [if_pos hm]
            exact hk.symm
          · rw [if_neg hm]
            exact hall (k, best) (List.mem_cons_self _ _)
        · exact hall p (List.mem_cons_of_mem _ hmem)
      · rw [if_neg hk] at hp
        rcases List.mem_cons.mp hp with rfl | hmem
        · exact hall (k, best) (List.mem_cons_self _ _)
        · exact ih (fun q hq => hall q (List.mem_cons_of_mem _ hq)) p hmem

/-- Key list of the updated champion dictionary: unchanged when the
family is already present, extended at the end otherwise. -/
theorem keys_insere (c : Cenario) (acc : List (String × Cenario)) :
    (insereCenario c acc).map Prod.fst =
      if c.modelo_base ∈ acc.map Prod.fst then acc.map Prod.fst
      else acc.map Prod.fst ++ [c.modelo_base] := by
  induction acc with
  | nil => simp [insereCenario]
  | cons hd tl ih =>
      obtain ⟨k, best⟩ := hd
      rw [insereCenario]
      by_cases hk : k = c.modelo_base
      · rw [if_pos hk]
        subst hk
        by_cases hm : melhorQue c best = true
        · rw [if_pos hm]
          simp
        · rw [if_neg hm]
          simp
      · have hk' : c.modelo_base ≠ k := fun h => hk h.symm
        rw [if_neg hk]
        simp only [List.map_cons, ih]
        by_cases hmem : c.modelo_base ∈ tl.map Prod.fst
        · simp [hmem, hk']
        · simp [hmem, hk']

/-- Updating the champion dictionary preserves distinctness of its
family keys. -/
theorem keys_nodup_insere (c : Cenario) (acc : List (String × Cenario))
    (h : (acc.map Prod.fst).Nodup) :
    ((insereCenario c acc).map Prod.fst).Nodup := by
  rw [keys_insere]
  split_ifs with hmem
  · exact h
  · exact h.append (List.nodup_singleton _)
      (fun a ha hb => hmem ((List.mem_singleton.mp hb) ▸ ha))

/-- Every key of the old champion dictionary is a key of the updated
one. -/
theorem mem_keys_insere (c : Cenario) (acc : List (String × Cenario))
    (a : String) (ha : a ∈ acc.map Prod.fst) :
    a ∈ (insereCenario c acc).map Prod.fst := by
  rw [keys_insere]
  split_ifs with hmem
  · exact ha
  · exact List.mem_append_left _ ha

/-- The inserted candidate's family is a key of the updated champion
dictionary. -/
theorem base_mem_keys_insere (c : Cenario) (acc : List (String × Cenario)) :
    c.modelo_base ∈ (insereCenario c acc).map Prod.fst := by
  rw [keys_insere]
  split_ifs with hmem
  · exact hmem
  · exact List.mem_append_right _ (List.mem_singleton_self _)

/-- After inserting a candidate, the champion stored under the
candidate's family key is no worse than the candidate. -/
theorem insere_head_min (c : Cenario) :
    ∀ (acc : List (String × Cenario)), (acc.map Prod.fst).Nodup →
      ∀ p ∈ insereCenario c acc, p.1 = c.modelo_base → chaveLe p.2 c = true := by
  intro acc
  induction acc with
  | nil =>
      intro _ p hp _
      rw [insereCenario, List.mem_singleton] at hp
      subst hp
      exact chaveLe_refl c
  | cons hd tl ih =>
      obtain ⟨k, best⟩ := hd
      intro hnd p hp hpb
      simp only [List.map_cons, List.nodup_cons] at hnd
      obtain ⟨hknot, hndtl⟩ := hnd
      rw [insereCenario] at hp
      by_cases hk : k = c.modelo_base
      · rw [if_pos hk] at hp
        rcases List.mem_cons.mp hp with rfl | hmem
        · by_cases hm : melhorQue c best = true
          · rw [if_pos hm]
            exact chaveLe_refl c
          · rw [if_neg hm]
            exact chaveLe_of_not_melhorQue (Bool.not_eq_true _ ▸ hm)
        · exfalso
          apply hknot
          have : p.1 ∈ tl.map Prod.fst := List.mem_map_of_mem Prod.fst hmem
          rw [hpb, ← hk] at this
          exact this
      · rw [if_neg hk] at hp
        rcases List.mem_cons.mp hp with rfl | hmem
        · exact absurd hpb hk
        · exact ih hndtl p hmem hpb

/-- Inserting a candidate never worsens the stored champion of any
family already dominated by the dictionary. -/
theorem insere_preserva_min (c x : Cenario) :
    ∀ (acc : List (String × Cenario)),
      x.modelo_base ∈ acc.map Prod.fst →
      (∀ p ∈ acc, p.1 = x.modelo_base → chaveLe p.2 x = true) →
      ∀ p ∈ insereCenario c acc, p.1 = x.modelo_base → chaveLe p.2 x = true := by
  intro acc
  induction acc with
  | nil =>
      intro hx
      simp at hx
  | cons hd tl ih =>
      obtain ⟨k, best⟩ := hd
      intro hx hmin p hp hpb
      rw [insereCenario] at hp
      by_cases hk : k = c.modelo_base
      · rw [if_pos hk] at hp
        rcases List.mem_cons.mp hp with rfl | hmem
        · by_cases hm : melhorQue c best = true
          · rw [if_pos hm] at hpb ⊢
            exact chaveLe_trans (chaveLe_of_melhorQue hm)
              (hmin (k, best) (List.mem_cons_self _ _) hpb)
          · rw [if_neg hm] at hpb ⊢
            exact hmin (k, best) (List.mem_cons_self _ _) hpb
        · exact hmin p (List.mem_cons_of_mem _ hmem) hpb
      · rw [if_neg hk] at hp
        rcases List.mem_cons.mp hp with rfl | hmem
        · exact hmin (k, best) (List.mem_cons_self _ _) hpb
        · by_cases hxk : x.modelo_base = k
          · rcases mem_insere c tl p hmem with htl | hpc
            · exact hmin p (List.mem_cons_of_mem _ htl) hpb
            · have : k = c.modelo_base := by rw [← hxk, ← hpb, hpc]
              exact absurd this hk
          · have hx' : x.modelo_base ∈ tl.map Prod.fst := by
              simp only [List.map_cons, List.mem_cons] at hx
              rcases hx with h | h
              · exact absurd h hxk
              · exact h
            exact ih hx' (fun q hq hqb => hmin q (List.mem_cons_of_mem _ hq) hqb)
              p hmem hpb

/-- Invariant of the champion fold: starting from a dictionary whose
stored scenarios match their keys, whose keys are distinct, and which
dominates every already-processed scenario, folding further candidates
preserves all of it and extends domination to the new candidates. -/
theorem fold_inv :
    ∀ (cs : List Cenario) (acc : List (String × Cenario)) (done : List Cenario),
      (∀ p ∈ acc, (Prod.snd p).modelo_base = p.1) →
      (acc.map Prod.fst).Nodup →
      (∀ x ∈ done, x.modelo_base ∈ acc.map Prod.fst) →
      (∀ x ∈ done, ∀ p ∈ acc, p.1 = x.modelo_base → chaveLe p.2 x = true) →
      (∀ p ∈ cs.foldl (fun a c => insereCenario c a) acc,
        (Prod.snd p).modelo_base = p.1) ∧
      ((cs.foldl (fun a c => insereCenario c a) acc).map Prod.fst).Nodup ∧
      (∀ x ∈ done ++ cs,
        x.modelo_base ∈ (cs.foldl (fun a c => insereCenario c a) acc).map Prod.fst) ∧
      (∀ x ∈ done ++ cs, ∀ p ∈ cs.foldl (fun a c => insereCenario c a) acc,
        p.1 = x.modelo_base → chaveLe p.2 x = true) := by
  intro cs
  induction cs with
  | nil =>
      intro acc done h1 h2 h3 h4
      simp only [List.foldl_nil, List.append_nil]
      exact ⟨h1, h2, h3, h4⟩
  | cons c cs ih =>
      intro acc done h1 h2 h3 h4
      simp only [List.foldl_cons]
      have h1' := insere_snd_base c acc h1
      have h2' := keys_nodup_insere c acc h2
      have h3' : ∀ x ∈ done ++ [c],
          x.modelo_base ∈ (insereCenario c acc).map Prod.fst := by
        intro x hx
        rcases List.mem_append.mp hx with hx | hx
        · exact mem_keys_insere c acc _ (h3 x hx)
        · rw [List.mem_singleton] at hx
          subst hx
          exact base_mem_keys_insere x acc
      have h4' : ∀ x ∈ done ++ [c], ∀ p ∈ insereCenario c acc,
          p.1 = x.modelo_base → chaveLe p.2 x = true := by
        intro x hx
        rcases List.mem_append.mp hx with hx | hx
        · exact insere_preserva_min c x acc (h3 x hx) (h4 x hx)
        · rw [List.mem_singleton] at hx
          subst hx
          exact insere_head_min x acc h2
      have hrec := ih (insereCenario c acc) (done ++ [c]) h1' h2' h3' h4'
      simpa [List.append_assoc] using hrec

/-- Specification of the champion dictionary built over a scenario
list: stored scenarios match their keys, keys are distinct, every
scenario's family has a champion, and every stored champion is no worse
on the ranking key than any scenario of its family. -/
theorem melhores_spec (cs : List Cenario) :
    (∀ p ∈ melhoresPorModelo cs, (Prod.snd p).modelo_base = p.1) ∧
    ((melhoresPorModelo cs).map Prod.fst).Nodup ∧
    (∀ x ∈ cs, x.modelo_base ∈ (melhoresPorModelo cs).map Prod.fst) ∧
    (∀ x ∈ cs, ∀ p ∈ melhoresPorModelo cs,
      p.1 = x.modelo_base → chaveLe p.2 x = true) := by
  have h := fold_inv cs [] [] (by simp) (by simp) (by simp) (by simp)
  simpa [melhoresPorModelo] using h

/-- C1: for every required performance and target subset,
`rank_cenarios` returns at most 10 scenarios with pairwise-distinct
families, sorted ascending by the two-component key
`(servidores, excedente_rperf)`, and each returned scenario is minimal
under that key among all feasible scenarios emitted for its family. -/
theorem claim_C1 (req : ℚ) (df_alvo : List Entry) :
    (rank_cenarios req df_alvo).length ≤ 10 ∧
    (rank_cenarios req df_alvo).Pairwise
      (fun a b => a.modelo_base ≠ b.modelo_base) ∧
    (rank_cenarios req df_alvo).Pairwise (fun a b => chaveLe a b = true) ∧
    ∀ s ∈ rank_cenarios req df_alvo, ∀ c ∈ cenarios_validos req df_alvo,
      c.modelo_base = s.modelo_base → chaveLe s c = true := by
  obtain ⟨hsnd, hnodup, hmem, hmin⟩ := melhores_spec (cenarios_validos req df_alvo)
  have hrank : rank_cenarios req df_alvo =
      (((melhoresPorModelo (cenarios_validos req df_alvo)).map
        Prod.snd).mergeSort chaveLe).take 10 := rfl
  have hperm := List.mergeSort_perm
    ((melhoresPorModelo (cenarios_validos req df_alvo)).map Prod.snd) chaveLe
  refine ⟨?_, ?_, ?_, ?_⟩
  · rw [hrank, List.length_take]
    exact min_le_left _ _
  · have hpair1 : (melhoresPorModelo (cenarios_validos req df_alvo)).Pairwise
        (fun p q => p.1 ≠ q.1) := List.pairwise_map.mp hnodup
    have hpair2 : (melhoresPorModelo (cenarios_validos req df_alvo)).Pairwise
        (fun p q => (Prod.snd p).modelo_base ≠ (Prod.snd q).modelo_base) := by
      refine hpair1.imp_of_mem ?_
      intro a b ha hb hab
      rw [hsnd a ha, hsnd b hb]
      exact hab
    have hcamp : ((melhoresPorModelo (cenarios_validos req df_alvo)).map
        Prod.snd).Pairwise (fun a b => a.modelo_base ≠ b.modelo_base) :=
      List.pairwise_map.mpr hpair2
    have hsorted := (hperm.pairwise_iff
      (fun {_ _} h => Ne.symm h)).mpr hcamp
    rw [hrank]
    exact hsorted.sublist (List.take_sublist _ _)
  · have hs := @List.sorted_mergeSort Cenario chaveLe
      (fun a b c h1 h2 => chaveLe_trans h1 h2) chaveLe_total_bool
      ((melhoresPorModelo (cenarios_validos req df_alvo)).map Prod.snd)
    rw [hrank]
    exact hs.sublist (List.take_sublist _ _)
  · intro s hs c hc hbase
    rw [hrank] at hs
    have hs1 := List.take_subset _ _ hs
    have hs2 := hperm.mem_iff.mp hs1
    obtain ⟨p, hp, hps⟩ := List.mem_map.mp hs2
    have hp1 : p.1 = c.modelo_base := by
      rw [hbase, ← hps]
      exact (hsnd p hp).symm
    have hfinal := hmin c hc p hp hp1
    rw [hps] at hfinal
    exact hfinal

/-- Target entry of family `F` with 20 maximum cores used by the C1
witness. -/
def entryF20 : Entry := ⟨"F20", "F", 1, 20, "p10", "4.0"⟩

/-- Target entry of family `F` with 24 maximum cores used by the C1
witness. -/
def entryF24 : Entry := ⟨"F24", "F", 1, 24, "p10", "4.0"⟩

/-- Scenario emitted for `entryF20` at requirement 15. -/
def cenarioF20 : Cenario := ⟨"F20", "F", 1, 16, 16, 4/5, 1⟩

/-- Scenario emitted for `entryF24` at requirement 15. -/
def cenarioF24 : Cenario := ⟨"F24", "F", 1, 16, 16, 2/3, 1⟩

/-- Witness for C1: at requirement 15 over the two family-`F` entries,
the returned champion is no worse on the ranking key than the other
feasible scenario of its family. -/
theorem claim_C1_witness : chaveLe cenarioF20 cenarioF24 = true := by
  have h1 : num_servidores_real 15 entryF20 = 1 := by
    rw [num_servidores_real, cores_necessarios, Int.ceil_eq_iff]
    norm_num [entryF20]
  have h2 : cores_ativos_arredondado 15 entryF20 = 15 := by
    rw [cores_ativos_arredondado, cores_por_servidor_media, cores_necessarios, h1,
      Int.ceil_eq_iff]
    norm_num [entryF20]
  have h3 : cores_ativos_por_servidor 15 entryF20 = 16 := by
    rw [cores_ativos_por_servidor, h2]
    norm_num
  have h4 : utilizacao_cores 15 entryF20 = 4/5 := by
    rw [utilizacao_cores, h3]
    norm_num [entryF20]
  have h5 : rperf_novo_total 15 entryF20 = 16 := by
    rw [rperf_novo_total, h1, h3]
    norm_num [entryF20]
  have hA : evalCenario 15 entryF20 = some cenarioF20 := by
    rw [evalCenario, h1, h3, h4, h5]
    norm_num [cenarioF20, entryF20]
  have k1 : num_servidores_real 15 entryF24 = 1 := by
    rw [num_servidores_real, cores_necessarios, Int.ceil_eq_iff]
    norm_num [entryF24]
  have k2 : cores_ativos_arredondado 15 entryF24 = 15 := by
    rw [cores_ativos_arredondado, cores_por_servidor_media, cores_necessarios, k1,
      Int.ceil_eq_iff]
    norm_num [entryF24]
  have k3 : cores_ativos_por_servidor 15 entryF24 = 16 := by
    rw [cores_ativos_por_servidor, k2]
    norm_num
  have k4 : utilizacao_cores 15 entryF24 = 2/3 := by
    rw [utilizacao_cores, k3]
    norm_num [entryF24]
  have k5 : rperf_novo_total 15 entryF24 = 16 := by
    rw [rperf_novo_total, k1, k3]
    norm_num [entryF24]
  have hB : evalCenario 15 entryF24 = some cenarioF24 := by
    rw [evalCenario, k1, k3, k4, k5]
    norm_num [cenarioF24, entryF24]
  have hv : cenarios_validos 15 [entryF20, entryF24] = [cenarioF20, cenarioF24] := by
    simp [cenarios_validos, hA, hB]
  have hm : melhorQue cenarioF24 cenarioF20 = false := by
    simp [melhorQue, cenarioF20, cenarioF24]
  have hb20 : cenarioF20.modelo_base = "F" := rfl
  have hb24 : cenarioF24.modelo_base = "F" := rfl
  have hr : rank_cenarios 15 [entryF20, entryF24] = [cenarioF20] := by
    rw [rank_cenarios, hv]
    simp [melhoresPorModelo, insereCenario, hm, hb20, hb24]
  exact (claim_C1 15 [entryF20, entryF24]).2.2.2 cenarioF20
    (by rw [hr]; exact List.mem_singleton_self _) cenarioF24
    (by rw [hv]; simp) rfl

end Sizing
